import Mathlib

/-!
Verification of the poller Lambda (`src/envs/dev/lambda/poller/handler.py`).

Python values arriving in the invocation event are modelled by the
inductive `Value` below: Python `str` is `String`, `int` is `Int`,
`float` is an exact rational (`Rat`; the binary rounding of IEEE floats
is not modelled — the handler only ever parses short decimal literals),
`bytes` is a list of byte values, and `dict`/`list` are association
lists / lists.  Python dicts coming from JSON events have unique keys,
so an association list with first-match lookup is a faithful model.
Raising an exception is modelled with `Except`/`Option`.
-/

set_option maxHeartbeats 1000000

inductive Value where
  | vNull
  | vBool (b : Bool)
  | vInt (n : Int)
  | vFloat (q : Rat)
  | vStr (s : String)
  | vBytes (bs : List Nat)
  | vList (xs : List Value)
  | vDict (kvs : List (String × Value))
deriving Repr

/-- First-match lookup in an association list, modelling `key in d` /
`d[key]` on a Python dict (keys are unique in dicts built from JSON). -/
def lookupV : List (String × Value) → String → Option Value
  | [], _ => none
  | (k, v) :: rest, key => if k = key then some v else lookupV rest key

theorem lookupV_sizeOf {kvs : List (String × Value)} {key : String} {v : Value}
    (h : lookupV kvs key = some v) : sizeOf v < sizeOf kvs := by
  induction kvs with
  | nil => simp [lookupV] at h
  | cons p rest ih =>
    obtain ⟨k, w⟩ := p
    by_cases hk : k = key
    · simp [lookupV, hk] at h
      subst h
      simp
      omega
    · simp [lookupV, hk] at h
      have := ih h
      simp
      omega

/-- Python numbers: `int` or `float` (floats modelled as exact rationals). -/
inductive PyNum where
  | int (n : Int)
  | float (q : Rat)
deriving Repr, DecidableEq

/-- Python `int()` applied to a float truncates toward zero. -/
def ratTrunc (q : Rat) : Int := if 0 ≤ q then q.floor else q.ceil

def PyNum.toInt : PyNum → Int
  | .int n => n
  | .float q => ratTrunc q

def PyNum.toRat : PyNum → Rat
  | .int n => (n : Rat)
  | .float q => q

/-- Digits-only string (as characters) to a natural number; `none` when the
character list is empty or holds a non-digit. -/
def digitsToNat (cs : List Char) : Option Nat :=
  if cs ≠ [] ∧ cs.all Char.isDigit then
    some (cs.foldl (fun a c => a * 10 + (c.toNat - 48)) 0)
  else none

/-- Python `str.strip()`: whitespace removed from both ends. -/
def pyStrip (cs : List Char) : List Char :=
  ((cs.dropWhile Char.isWhitespace).reverse.dropWhile Char.isWhitespace).reverse

/-- Python `int(s)` for a string: surrounding whitespace stripped, optional
sign, decimal digits.  (Underscore separators and alternate bases are not
modelled; the handler only meets plain decimal literals.) -/
def pyParseInt (s : String) : Option Int :=
  match pyStrip s.toList with
  | '-' :: cs => (digitsToNat cs).map (fun n => -(n : Int))
  | '+' :: cs => (digitsToNat cs).map (fun n => (n : Int))
  | cs => (digitsToNat cs).map (fun n => (n : Int))

/-- Decimal core of Python `float(s)`: `a.b`, `.b`, `a.`, or plain digits. -/
def pyParseFloatCore (cs : List Char) : Option Rat :=
  let a := cs.takeWhile (· ≠ '.')
  match cs.dropWhile (· ≠ '.') with
  | '.' :: b =>
    if (a.all Char.isDigit && b.all Char.isDigit) && !(a.isEmpty && b.isEmpty)
        && !b.contains '.' then
      some ((((a.foldl (fun x c => x * 10 + (c.toNat - 48)) 0 : Nat) : Rat))
        + ((b.foldl (fun x c => x * 10 + (c.toNat - 48)) 0 : Nat) : Rat) / ((10 : Rat) ^ b.length))
    else none
  | _ => (digitsToNat cs).map (fun n => (n : Rat))

/-- Python `float(s)` for a string: whitespace stripped, optional sign,
decimal form.  (Exponent, `inf` and `nan` forms are not modelled; the
handler only meets plain decimal literals such as `"1.5"`.) -/
def pyParseFloat (s : String) : Option Rat :=
  match pyStrip s.toList with
  | '-' :: cs => (pyParseFloatCore cs).map (fun q => -q)
  | '+' :: cs => pyParseFloatCore cs
  | cs => pyParseFloatCore cs

/-- Python `int(x)` on an arbitrary value; `none` models a raised
`TypeError`/`ValueError`.  `bool` is an `int` subclass in Python. -/
def pyIntFn : Value → Option Int
  | .vInt n => some n
  | .vFloat q => some (ratTrunc q)
  | .vBool b => some (if b then 1 else 0)
  | .vStr s => pyParseInt s
  | _ => none

/-- Python `float(x)` on an arbitrary value; `none` models a raised error.
(`bytes` arguments, accepted by CPython, are not modelled — no `N`-tagged
attribute value carries bytes.) -/
def pyFloatFn : Value → Option Rat
  | .vInt n => some (n : Rat)
  | .vFloat q => some q
  | .vBool b => some (if b then 1 else 0)
  | .vStr s => pyParseFloat s
  | _ => none

/-- Python truthiness of a value. -/
def pyTruthy : Value → Bool
  | .vNull => false
  | .vBool b => b
  | .vInt n => decide (n ≠ 0)
  | .vFloat q => decide (q ≠ 0)
  | .vStr s => decide (s ≠ "")
  | .vBytes bs => decide (bs ≠ [])
  | .vList xs => !xs.isEmpty
  | .vDict kvs => !kvs.isEmpty

/-- Truthiness of an optional string (`None` and `""` are falsy). -/
def optTruthy : Option String → Bool
  | some s => decide (s ≠ "")
  | none => false

/-- Python `a or b` on optional strings (`None` and `""` are falsy). -/
def pyOrOpt (a b : Option String) : Option String :=
  match a with
  | some s => if s = "" then b else some s
  | none => b

/-- Python `a or d` where `d` is a non-empty string literal default. -/
def strOrD (a : Option String) (d : String) : String :=
  match a with
  | some s => if s = "" then d else s
  | none => d

/-- Python `a or b` where `a` is an optional string and `b` a string. -/
def pyOrS (a : Option String) (b : String) : String :=
  match a with
  | some s => if s = "" then b else s
  | none => b

/-- Models `_as_number` from `handler.py`: numbers pass through, a string
parses as float when it contains a dot and as int otherwise (default on
parse failure), a dict recurses through its `"N"` tag, and everything
else yields the default. -/
def asNumber (val : Value) (default : Option PyNum) : Option PyNum :=
  match val with
  | .vBool b => some (.int (if b then 1 else 0))
  | .vInt n => some (.int n)
  | .vFloat q => some (.float q)
  | .vStr s =>
    if s.toList.contains '.' then
      match pyParseFloat s with
      | some q => some (.float q)
      | none => default
    else
      match pyParseInt s with
      | some n => some (.int n)
      | none => default
  | .vDict kvs =>
    match h : lookupV kvs "N" with
    | some v => asNumber v default
    | none => default
  | _ => default
termination_by sizeOf val
decreasing_by
  simp only [Value.vDict.sizeOf_spec]
  have := lookupV_sizeOf h
  omega

/-- One iteration body of the `_as_number_list` loop as a per-element
coercion: `_as_number(v, None)` and then the `int(v)` last resort; the
successful value is the appended `int(n)`. -/
def numElem (v : Value) : Option Int :=
  match asNumber v none with
  | some n => some n.toInt
  | none => pyIntFn v

/-- The `for v in vals` loop of `_as_number_list`: coerce each element,
`continue` (drop) on failure. -/
def asNumberListLoop : List Value → List Int
  | [] => []
  | v :: rest =>
    match asNumber v none with
    | some n => n.toInt :: asNumberListLoop rest
    | none =>
      match pyIntFn v with
      | some m => m :: asNumberListLoop rest
      | none => asNumberListLoop rest

/-- Models `_as_number_list` from `handler.py`: a plain list runs the
element loop, a dict recurses through its `"L"` tag, and anything else
yields `default_list or []`. -/
def asNumberList (vals : Value) (defaultList : Option (List Int)) : List Int :=
  match vals with
  | .vList vs => asNumberListLoop vs
  | .vDict kvs =>
    match h : lookupV kvs "L" with
    | some l => asNumberList l defaultList
    | none => defaultList.getD []
  | _ => defaultList.getD []
termination_by sizeOf vals
decreasing_by
  simp only [Value.vDict.sizeOf_spec]
  have := lookupV_sizeOf h
  omega

/-- Whether `"." in str(n)` holds for the values `_from_attrval` can
convert (for non-convertible values the subsequent `float`/`int` raises
and the original value is returned, so the flag is irrelevant there). -/
def strHasDot : Value → Bool
  | .vStr s => s.toList.contains '.'
  | .vFloat _ => true
  | _ => false

/-- The `"N"` branch of `_from_attrval`:
`try: return float(n) if "." in str(n) else int(n) except: return n`. -/
def attrvalNum (n : Value) : Value :=
  if strHasDot n then
    match pyFloatFn n with
    | some q => .vFloat q
    | none => n
  else
    match pyIntFn n with
    | some i => .vInt i
    | none => n

mutual
/-- Models `_from_attrval` from `handler.py`: unwrap `S`/`N`/`M`/`L`
tagged DynamoDB attribute values recursively, with a shallow-conversion
fallback for other dicts; plain values pass through. -/
def fromAttrval (value : Value) : Value :=
  match value with
  | .vDict kvs =>
    match lookupV kvs "S" with
    | some s => s
    | none =>
      match lookupV kvs "N" with
      | some n => attrvalNum n
      | none =>
        match hm : lookupV kvs "M" with
        | some (.vDict m) => .vDict (fromAttrvalKvs m)
        | _ =>
          match hl : lookupV kvs "L" with
          | some (.vList l) => .vList (fromAttrvalList l)
          | _ => .vDict (fromAttrvalKvs kvs)
  | .vList xs => .vList (fromAttrvalList xs)
  | v => v
termination_by sizeOf value
decreasing_by
  · simp only [Value.vDict.sizeOf_spec]
    have := lookupV_sizeOf hm
    simp only [Value.vDict.sizeOf_spec] at this
    omega
  · simp only [Value.vDict.sizeOf_spec, Value.vList.sizeOf_spec]
    have := lookupV_sizeOf hl
    simp only [Value.vList.sizeOf_spec] at this
    omega
  · simp only [Value.vDict.sizeOf_spec]
    omega
  · simp only [Value.vList.sizeOf_spec]
    omega

def fromAttrvalKvs : List (String × Value) → List (String × Value)
  | [] => []
  | (k, v) :: rest => (k, fromAttrval v) :: fromAttrvalKvs rest
termination_by kvs => sizeOf kvs
decreasing_by
  · simp only [List.cons.sizeOf_spec, Prod.mk.sizeOf_spec]
    omega
  · simp only [List.cons.sizeOf_spec]
    omega

def fromAttrvalList : List Value → List Value
  | [] => []
  | v :: rest => fromAttrval v :: fromAttrvalList rest
termination_by xs => sizeOf xs
decreasing_by
  · simp only [List.cons.sizeOf_spec]
    omega
  · simp only [List.cons.sizeOf_spec]
    omega
end

/-- Lookup in a string-valued dict (response headers). -/
def lookupS : List (String × String) → String → Option String
  | [], _ => none
  | (k, v) :: rest, key => if k = key then some v else lookupS rest key

/-- Python dict assignment `d[k] = v` / merge `{**d, k: v}`: an existing
key keeps its position and gets the new value, a new key is appended. -/
def dictSetV (kvs : List (String × Value)) (k : String) (v : Value) : List (String × Value) :=
  if (lookupV kvs k).isSome then
    kvs.map (fun p => if p.1 = k then (k, v) else p)
  else kvs ++ [(k, v)]

/-- Python `d.update(new)` where `new` holds string values. -/
def dictUpdateV (kvs : List (String × Value)) (new : List (String × String)) : List (String × Value) :=
  new.foldl (fun acc p => dictSetV acc p.1 (.vStr p.2)) kvs

/-- Request payload handed to `urllib`: `s.encode()` of a string, or the
value passed through unchanged (the `bytes` branch). -/
inductive ByteData where
  | ofStr (s : String)
  | passthrough (v : Value)
deriving Repr

/-- Models the body-serialization part of `_http_request`
(`handler.py` lines 228-239): a dict or list body is serialized with
`json.dumps` (abstracted as the `jsonDumps` argument) and the headers are
rebuilt as `{**(headers or {}), "Content-Type": "application/json"}`; a
string body is encoded as-is; any other body passes through as `data`.
Returns the `data` payload and the headers actually sent. -/
def httpRequestPrepare (jsonDumps : Value → String)
    (headers : List (String × Value)) (body : Option Value) :
    Option ByteData × List (String × Value) :=
  match body with
  | none => (none, headers)
  | some b =>
    match b with
    | .vDict _ => (some (.ofStr (jsonDumps b)), dictSetV headers "Content-Type" (.vStr "application/json"))
    | .vList _ => (some (.ofStr (jsonDumps b)), dictSetV headers "Content-Type" (.vStr "application/json"))
    | .vStr s => (some (.ofStr s), headers)
    | other => (some (.passthrough other), headers)

/-- The process-wide `_SECRET_CACHE`: name to (expiry timestamp, raw value). -/
abbrev Cache := List (String × Rat × String)

def cacheGet : Cache → String → Option (Rat × String)
  | [], _ => none
  | (k, e, v) :: rest, key => if k = key then some (e, v) else cacheGet rest key

/-- Python `_SECRET_CACHE[name] = (expiry, val)`. -/
def cacheSet (c : Cache) (name : String) (exp : Rat) (val : String) : Cache :=
  if (cacheGet c name).isSome then
    c.map (fun p => if p.1 = name then (name, exp, val) else p)
  else c ++ [(name, exp, val)]

/-- Observable state threaded through a secret fetch: the cache, the
number of secret-store calls made so far, and the backoff sleeps
performed (in order, in seconds). -/
structure FetchSt where
  cache : Cache
  calls : Nat
  sleeps : List Rat
deriving Repr

/-- The `for i in range(1, attempts + 1)` loop of
`_get_secret_value_with_retry`.  `store` abstracts `_get_secret_value`
with `json_key=None` (the Secrets Manager call, indexed by the number of
store calls already made; `Except.error` models a raised exception).
`jl` abstracts `json.loads(val)[json_key]`.  On a successful fetch the
raw value is cached before `json_key` extraction; a failed extraction
re-raises into the same `except` branch and counts as a failed attempt.
After the last attempt the recorded `last_err` is raised (`raise None`,
a `TypeError`, when no attempt ever ran). -/
def secretFetchLoop (store : Nat → Except String String)
    (jl : String → String → Except String String) (name : String)
    (jsonKey : Option String) (attempts : Nat) (backoff ttl now : Rat) :
    Nat → Nat → Option String → FetchSt → Except String String × FetchSt
  | _, 0, lastErr, st =>
    (.error (lastErr.getD "TypeError: exceptions must derive from BaseException"), st)
  | i, remaining + 1, lastErr, st =>
    match store st.calls with
    | .ok val =>
      let st1 : FetchSt :=
        { st with
          calls := st.calls + 1
          cache := cacheSet st.cache name (now + ttl) val }
      if optTruthy jsonKey then
        match jl val (jsonKey.getD "") with
        | .ok r => (.ok r, st1)
        | .error e =>
          let st2 := if i < attempts then { st1 with sleeps := st1.sleeps ++ [backoff ^ i] } else st1
          secretFetchLoop store jl name jsonKey attempts backoff ttl now (i + 1) remaining (some e) st2
      else (.ok val, st1)
    | .error e =>
      let st1 : FetchSt := { st with calls := st.calls + 1 }
      let st2 := if i < attempts then { st1 with sleeps := st1.sleeps ++ [backoff ^ i] } else st1
      secretFetchLoop store jl name jsonKey attempts backoff ttl now (i + 1) remaining (some e) st2

/-- Models `_get_secret_value_with_retry` from `handler.py`: a cache hit
(entry for `name` with `cached[0] > now`) returns the extracted
`json_key` value when extraction succeeds, and otherwise returns the raw
cached value (`return cached_val` is reached after the `except: pass`);
a cache miss runs the fetch loop starting at attempt `i = 1`. -/
def getSecretValueWithRetry (store : Nat → Except String String)
    (jl : String → String → Except String String) (name : String)
    (jsonKey : Option String) (attempts : Nat) (backoff : Rat)
    (ttl now : Rat) (cache : Cache) (calls0 : Nat) :
    Except String String × FetchSt :=
  let st0 : FetchSt := { cache := cache, calls := calls0, sleeps := [] }
  match cacheGet cache name with
  | some (exp, cachedVal) =>
    if now < exp then
      if optTruthy jsonKey then
        match jl cachedVal (jsonKey.getD "") with
        | .ok r => (.ok r, st0)
        | .error _ => (.ok cachedVal, st0)
      else (.ok cachedVal, st0)
    else
      secretFetchLoop store jl name jsonKey attempts backoff ttl now 1 attempts none st0
  | none =>
    secretFetchLoop store jl name jsonKey attempts backoff ttl now 1 attempts none st0

/-- Environment-derived configuration of the handler module
(`os.environ` reads at import time and in `_resolve_api_key`).  A field
holding `some ""` models an environment variable set to the empty
string (falsy in the `or` chains). -/
structure Config where
  API_KEY_HEADER : Option String := none
  API_KEY_PREFIX : Option String := none
  API_SECRET_NAME : Option String := none
  API_SECRET_JSON_KEY : Option String := none
  API_KEY : Option String := none
  RETURN_DEBUG : Bool := false
  MAX_BODY_CHARS : Nat := 240000
  API_SECRET_TTL_SECONDS : Rat := 300

/-- The optional `auth` object of the invocation event. -/
structure AuthEvt where
  header_name : Option String := none
  pfx : Option String := none
  secret_name : Option String := none
  json_key : Option String := none

/-- Models `_resolve_api_key` from `handler.py`.  Returns the auth
headers and source label, or propagates the fetch error, together with
the fetch-side observable state. -/
def resolveApiKey (cfg : Config) (auth : Option AuthEvt)
    (store : Nat → Except String String)
    (jl : String → String → Except String String)
    (now : Rat) (cache : Cache) (calls0 : Nat) :
    Except String (List (String × String) × Option String) × FetchSt :=
  let headerName := strOrD (pyOrOpt cfg.API_KEY_HEADER (auth.bind AuthEvt.header_name)) "Authorization"
  let keyPfx := strOrD (pyOrOpt cfg.API_KEY_PREFIX (auth.bind AuthEvt.pfx)) "Bearer "
  let secretName := pyOrOpt cfg.API_SECRET_NAME (auth.bind AuthEvt.secret_name)
  let jsonKey := pyOrOpt cfg.API_SECRET_JSON_KEY (auth.bind AuthEvt.json_key)
  let st0 : FetchSt := { cache := cache, calls := calls0, sleeps := [] }
  if optTruthy secretName then
    let name := secretName.getD ""
    match getSecretValueWithRetry store jl name jsonKey 3 (3 / 2 : Rat)
        cfg.API_SECRET_TTL_SECONDS now cache calls0 with
    | (.ok secret, st) => (.ok ([(headerName, keyPfx ++ secret)], some ("secret:" ++ name)), st)
    | (.error e, st) => (.error e, st)
  else if optTruthy cfg.API_KEY then
    (.ok ([(headerName, keyPfx ++ (cfg.API_KEY.getD ""))], some "env:API_KEY"), st0)
  else
    (.ok ([], none), st0)

/-- Outcome of one `_http_request` network call, as seen by the retry
loop: a response (status, headers, body decoded later, duration as
measured) or a raised transport exception.  The loop sends the same
request each attempt, so the network is modelled as an oracle indexed by
the number of HTTP calls already made.  The response body is the `str`
obtained by `body.decode(errors="replace")`, modelled as a list of
characters (the replacement decode is total). -/
inductive HttpOutcome where
  | resp (status : Int) (headers : List (String × String)) (body : List Char) (durationMs : Int)
  | err (msg : String)
deriving Repr

/-- One entry of `attempt_logs`. -/
structure AttemptLog where
  attempt : Nat
  status : Option Int := none
  duration_ms : Option Int := none
  error : Option String := none
deriving Repr, DecidableEq

/-- The `debug.request` shape attached when `RETURN_DEBUG` is set. -/
structure DbgRequest where
  method : String
  url : String
  query : Option Value
  headers : List (String × Value)
  timeout : PyNum
deriving Repr

/-- The `debug` object of the result envelope. -/
structure Dbg where
  request : DbgRequest
  attempts : List AttemptLog
  last_duration_ms : Option Int
deriving Repr

/-- The result envelope returned by `lambda_handler`.  A field of value
`none` models a key that is absent from the returned dict or present
with value `None` (the two are not distinguished). -/
structure Envelope where
  ok : Bool
  status : Option Int := none
  headers : Option (List (String × String)) := none
  body : Option (List Char) := none
  body_truncated : Option Bool := none
  content_type : Option String := none
  attempts : Option Nat := none
  auth_used : Option String := none
  error : Option String := none
  last_error : Option String := none
  debug : Option Dbg := none

/-- Per-invocation context of the retry loop (values fixed before the
`while` loop starts). -/
structure LoopCtx where
  http : Nat → HttpOutcome
  maxAttempts : Int
  backoff : Rat
  retryOn : List Int
  maxBodyChars : Nat
  returnDebug : Bool
  authSource : Option String
  dbgRequest : DbgRequest

/-- Mutable state of the retry loop, plus the observable effect lists:
`sleeps` records each `time.sleep(backoff ** attempt)` and `calls` the
number of HTTP calls made. -/
structure LoopAcc where
  lastErr : Option String := none
  lastStatus : Option Int := none
  lastDurationMs : Option Int := none
  attemptLogs : List AttemptLog := []
  sleeps : List Rat := []
  calls : Nat := 0

/-- The failure envelope built after the `while` loop exhausts
(`handler.py` lines 389-409). -/
def failureEnvelope (ctx : LoopCtx) (attempt : Nat) (acc : LoopAcc) : Envelope :=
  { ok := false
    error := some ("Poller failed after " ++ toString attempt ++ " attempts")
    last_error := acc.lastErr
    status := acc.lastStatus
    attempts := some attempt
    auth_used := ctx.authSource
    debug := if ctx.returnDebug then
        some { request := ctx.dbgRequest, attempts := acc.attemptLogs, last_duration_ms := acc.lastDurationMs }
      else none }

/-- The success-path envelope built when the loop stops on a response
(`handler.py` lines 331-375): content type by case-variant lookup with
falsy fallback, body truncation to `MAX_BODY_CHARS`, and the optional
debug object. -/
def successEnvelope (ctx : LoopCtx) (attempt : Nat) (acc : LoopAcc) (ok : Bool)
    (status : Int) (respHeaders : List (String × String)) (body : List Char) : Envelope :=
  let contentType := pyOrS (lookupS respHeaders "Content-Type") (pyOrS (lookupS respHeaders "content-type") "")
  let truncated := decide (body.length > ctx.maxBodyChars)
  let bodyText := if body.length > ctx.maxBodyChars then body.take ctx.maxBodyChars else body
  { ok := ok
    status := some status
    headers := some respHeaders
    body := some bodyText
    body_truncated := some truncated
    content_type := some contentType
    attempts := some attempt
    auth_used := ctx.authSource
    debug := if ctx.returnDebug then
        some { request := ctx.dbgRequest, attempts := acc.attemptLogs, last_duration_ms := acc.lastDurationMs }
      else none }

/-- The `while attempt < max_attempts` retry loop of `lambda_handler`
(`handler.py` lines 298-409).  `remaining` counts the iterations still
to run (`lambda_handler` passes `max_attempts.toNat`, the exact number
of iterations of the Python loop); `attempt` is the loop counter.  Each
iteration makes one HTTP call; a response with `ok` status or a status
outside `retry_on` returns the success envelope at once, any other
response or a transport error falls through to the backoff sleep, which
runs only while `attempt < max_attempts` still holds after the
increment. -/
def pollLoop (ctx : LoopCtx) : Nat → Nat → LoopAcc → Envelope × LoopAcc
  | 0, attempt, acc => (failureEnvelope ctx attempt acc, acc)
  | remaining + 1, attempt, acc =>
    let attempt' := attempt + 1
    match ctx.http acc.calls with
    | .resp status respHeaders body durationMs =>
      let acc1 : LoopAcc :=
        { acc with
          calls := acc.calls + 1
          lastStatus := some status
          lastDurationMs := some durationMs
          attemptLogs := acc.attemptLogs ++
            [{ attempt := attempt', status := some status, duration_ms := some durationMs }] }
      let ok : Bool := decide (200 ≤ status ∧ status < 300)
      if ok || !(ctx.retryOn.contains status) then
        (successEnvelope ctx attempt' acc1 ok status respHeaders body, acc1)
      else
        let acc2 := if (attempt' : Int) < ctx.maxAttempts then
            { acc1 with sleeps := acc1.sleeps ++ [ctx.backoff ^ attempt'] }
          else acc1
        pollLoop ctx remaining attempt' acc2
    | .err msg =>
      let acc1 : LoopAcc :=
        { acc with
          calls := acc.calls + 1
          lastErr := some msg
          attemptLogs := acc.attemptLogs ++ [{ attempt := attempt', error := some msg }] }
      let acc2 := if (attempt' : Int) < ctx.maxAttempts then
          { acc1 with sleeps := acc1.sleeps ++ [ctx.backoff ^ attempt'] }
        else acc1
      pollLoop ctx remaining attempt' acc2

/-- The `request` object of the invocation event.  `url`, when present,
is assumed to be a string (the handler passes it to `urllib` verbatim);
the other fields keep their wire `Value` shape and are coerced by the
handler. -/
structure Request where
  url : Option String := none
  method : Option String := none
  headers : Option Value := none
  query : Option Value := none
  body : Option Value := none
  timeout : Option Value := none

/-- The retry policy object of the event; fields may arrive in wrapped
attribute-value shape, hence `Value`. -/
structure RetryEvt where
  max_attempts : Option Value := none
  backoff : Option Value := none
  retry_on : Option Value := none

/-- The invocation event: `request`, optional `auth`, optional `retry`.
An absent `request` key (Python `event.get("request", {})`) is the
all-`none` `Request`. -/
structure Event where
  request : Request := {}
  auth : Option AuthEvt := none
  retry : Option RetryEvt := none

/-- External world of one invocation: the secret store and HTTP oracles
(indexed by call count), the `json.loads(...)[key]` extraction, and the
wall-clock `time.time()` value at entry. -/
structure World where
  store : Nat → Except String String
  jsonLookup : String → String → Except String String
  http : Nat → HttpOutcome
  now : Rat

/-- Everything observable about one `lambda_handler` invocation: the
returned envelope (or the uncaught raised exception), the number of
HTTP and secret-store calls, the backoff sleeps of the secret fetch and
of the retry loop, and the secret cache afterwards. -/
structure HandlerTrace where
  result : Except String Envelope
  httpCalls : Nat
  storeCalls : Nat
  secretSleeps : List Rat
  loopSleeps : List Rat
  cacheAfter : Cache

/-- The default retry statuses `[429, 500, 502, 503, 504]`. -/
def defaultRetryOn : List Int := [429, 500, 502, 503, 504]

/-- Python `event.get("retry", {"max_attempts": 3, "backoff": 1.5,
"retry_on": [429, 500, 502, 503, 504]})`. -/
def effectiveRetry (e : Event) : RetryEvt :=
  e.retry.getD
    { max_attempts := some (.vInt 3)
      backoff := some (.vFloat (3 / 2 : Rat))
      retry_on := some (.vList (defaultRetryOn.map .vInt)) }

/-- Coerced `max_attempts`: `int(_as_number(retry.get("max_attempts", 3), 3))`. -/
def maxAttemptsOf (e : Event) : Int :=
  ((asNumber ((effectiveRetry e).max_attempts.getD (.vInt 3)) (some (.int 3))).getD (.int 3)).toInt

/-- Coerced `backoff`: `float(_as_number(retry.get("backoff", 1.5), 1.5))`. -/
def backoffOf (e : Event) : Rat :=
  ((asNumber ((effectiveRetry e).backoff.getD (.vFloat (3 / 2 : Rat))) (some (.float (3 / 2 : Rat)))).getD
    (.float (3 / 2 : Rat))).toRat

/-- Coerced `retry_on`: `set(_as_number_list(retry.get("retry_on", d), d))`
with `d = [429, 500, 502, 503, 504]`; only membership in the set is ever
used, so the list itself is kept. -/
def retryOnOf (e : Event) : List Int :=
  asNumberList ((effectiveRetry e).retry_on.getD (.vList (defaultRetryOn.map .vInt))) (some defaultRetryOn)

/-- Lines 274-275 of `handler.py`:
`headers = _from_attrval(req.get("headers", {})) or {}` followed by
`headers.update(auth_headers)`.  Yields `none` when the normalized
headers are a truthy non-dict (Python would raise `AttributeError` on
`.update`). -/
def headersStep (reqHeaders : Option Value) (authHeaders : List (String × String)) :
    Option (List (String × Value)) :=
  let h0 := fromAttrval (reqHeaders.getD (.vDict []))
  let h1 := if pyTruthy h0 then h0 else .vDict []
  match h1 with
  | .vDict kvs => some (dictUpdateV kvs authHeaders)
  | _ => none

/-- Coerced `timeout`: `_as_number(req.get("timeout", 10), 10)`. -/
def timeoutOf (req : Request) : PyNum :=
  (asNumber (req.timeout.getD (.vInt 10)) (some (.int 10))).getD (.int 10)

/-- The normalized `query`:
`_from_attrval(req.get("query")) if req.get("query") is not None else None`. -/
def queryOf (req : Request) : Option Value :=
  match req.query with
  | some q => some (fromAttrval q)
  | none => none

/-- The loop context `lambda_handler` fixes before entering the retry
loop. -/
def mkCtx (cfg : Config) (w : World) (e : Event) (authSource : Option String)
    (headers : List (String × Value)) (url : String) : LoopCtx :=
  { http := w.http
    maxAttempts := maxAttemptsOf e
    backoff := backoffOf e
    retryOn := retryOnOf e
    maxBodyChars := cfg.MAX_BODY_CHARS
    returnDebug := cfg.RETURN_DEBUG
    authSource := authSource
    dbgRequest :=
      { method := e.request.method.getD "GET"
        url := url
        query := queryOf e.request
        headers := headers
        timeout := timeoutOf e.request } }

/-- Models `lambda_handler` from `handler.py`: retry-policy coercion,
the `request.url` presence check, credential resolution (whose raised
error propagates uncaught), header normalization and merge, and the
retry loop.  Logging calls are side effects without influence on the
result and are not modelled. -/
def lambdaHandler (cfg : Config) (w : World) (event : Event) (cache0 : Cache) : HandlerTrace :=
  match event.request.url with
  | none =>
    { result := .ok { ok := false, error := some "request.url is required" }
      httpCalls := 0
      storeCalls := 0
      secretSleeps := []
      loopSleeps := []
      cacheAfter := cache0 }
  | some url =>
    match resolveApiKey cfg event.auth w.store w.jsonLookup w.now cache0 0 with
    | (.error e, st) =>
      { result := .error e
        httpCalls := 0
        storeCalls := st.calls
        secretSleeps := st.sleeps
        loopSleeps := []
        cacheAfter := st.cache }
    | (.ok (authHeaders, authSource), st) =>
      match headersStep event.request.headers authHeaders with
      | none =>
        { result := .error "AttributeError: update on non-dict headers"
          httpCalls := 0
          storeCalls := st.calls
          secretSleeps := st.sleeps
          loopSleeps := []
          cacheAfter := st.cache }
      | some headers =>
        let ctx := mkCtx cfg w event authSource headers url
        let p := pollLoop ctx (maxAttemptsOf event).toNat 0 {}
        { result := .ok p.1
          httpCalls := p.2.calls
          storeCalls := st.calls
          secretSleeps := st.sleeps
          loopSleeps := p.2.sleeps
          cacheAfter := st.cache }

/-! Helper lemmas about the embedded definitions. -/

theorem lookupV_mapSet_self (kvs : List (String × Value)) (k : String) (v : Value) :
    lookupV (kvs.map (fun p => if p.1 = k then (k, v) else p)) k =
      (lookupV kvs k).map (fun _ => v) := by
  induction kvs with
  | nil => simp [lookupV]
  | cons p rest ih =>
    obtain ⟨k', v'⟩ := p
    rw [List.map_cons]
    by_cases hk : k' = k
    · subst hk
      have hhead : (if (k', v').1 = k' then (k', v) else (k', v')) = (k', v) := by simp
      rw [hhead]
      simp [lookupV]
    · have hhead : (if (k', v').1 = k then (k, v) else (k', v')) = (k', v') := by simp [hk]
      rw [hhead]
      simp [lookupV, hk, ih]

theorem lookupV_mapSet_other (kvs : List (String × Value)) (k key : String) (v : Value)
    (hne : key ≠ k) :
    lookupV (kvs.map (fun p => if p.1 = k then (k, v) else p)) key = lookupV kvs key := by
  induction kvs with
  | nil => simp
  | cons p rest ih =>
    obtain ⟨k', v'⟩ := p
    rw [List.map_cons]
    by_cases hk : k' = k
    · subst hk
      have hhead : (if (k', v').1 = k' then (k', v) else (k', v')) = (k', v) := by simp
      rw [hhead]
      have hne' : ¬(k' = key) := fun h => hne h.symm
      simp [lookupV, hne', ih]
    · have hhead : (if (k', v').1 = k then (k, v) else (k', v')) = (k', v') := by simp [hk]
      rw [hhead]
      by_cases h2 : k' = key
      · simp [lookupV, h2]
      · simp [lookupV, h2, ih]

theorem lookupV_append_single (kvs : List (String × Value)) (k key : String) (v : Value) :
    lookupV (kvs ++ [(k, v)]) key =
      (match lookupV kvs key with
       | some w => some w
       | none => if k = key then some v else none) := by
  induction kvs with
  | nil => simp [lookupV]
  | cons p rest ih =>
    obtain ⟨k', v'⟩ := p
    by_cases hk : k' = key
    · simp [lookupV, hk]
    · simp [lookupV, hk, ih]

theorem lookupV_dictSetV_self (kvs : List (String × Value)) (k : String) (v : Value) :
    lookupV (dictSetV kvs k v) k = some v := by
  unfold dictSetV
  by_cases h : (lookupV kvs k).isSome
  · obtain ⟨w, hw⟩ := Option.isSome_iff_exists.mp h
    simp [h, lookupV_mapSet_self, hw]
  · simp [h, lookupV_append_single, Option.not_isSome_iff_eq_none.mp h]

theorem lookupV_dictSetV_other (kvs : List (String × Value)) (k key : String) (v : Value)
    (hne : key ≠ k) : lookupV (dictSetV kvs k v) key = lookupV kvs key := by
  unfold dictSetV
  by_cases h : (lookupV kvs k).isSome
  · simp [h, lookupV_mapSet_other _ _ _ _ hne]
  · simp only [h, if_false, Bool.false_eq_true, lookupV_append_single]
    cases hx : lookupV kvs key with
    | some w => simp
    | none =>
      have hkk : ¬(k = key) := fun hh => hne hh.symm
      simp [hkk]

theorem asNumberListLoop_eq_filterMap (vs : List Value) :
    asNumberListLoop vs = vs.filterMap numElem := by
  induction vs with
  | nil => simp [asNumberListLoop]
  | cons v rest ih =>
    rw [List.filterMap_cons]
    cases ha : asNumber v none with
    | some n => simp [asNumberListLoop, ha, numElem, ih]
    | none =>
      cases hi : pyIntFn v with
      | some m => simp [asNumberListLoop, ha, hi, numElem, ih]
      | none => simp [asNumberListLoop, ha, hi, numElem, ih]

/-- Stopping case of the retry loop: when at least one iteration remains
and the current HTTP call yields a response whose status is 2xx or
outside the retry set, the loop returns the success envelope at once,
with one more HTTP call and no further sleep. -/
theorem pollLoop_stops (ctx : LoopCtx) (remaining attempt : Nat) (acc : LoopAcc)
    (s : Int) (hs : List (String × String)) (b : List Char) (d : Int)
    (hk : ctx.http acc.calls = .resp s hs b d)
    (hterm : (200 ≤ s ∧ s < 300) ∨ ctx.retryOn.contains s = false) :
    ∃ acc', pollLoop ctx (remaining + 1) attempt acc =
        (successEnvelope ctx (attempt + 1) acc' (decide (200 ≤ s ∧ s < 300)) s hs b, acc') ∧
      acc'.sleeps = acc.sleeps ∧ acc'.calls = acc.calls + 1 := by
  have hcond : (decide (200 ≤ s ∧ s < 300) || !(ctx.retryOn.contains s)) = true := by
    rcases hterm with h | h
    · rw [decide_eq_true h]
      simp
    · rw [h]
      simp
  refine ⟨{ acc with
            calls := acc.calls + 1
            lastStatus := some s
            lastDurationMs := some d
            attemptLogs := acc.attemptLogs ++
              [{ attempt := attempt + 1, status := some s, duration_ms := some d }] }, ?_, rfl, rfl⟩
  rw [pollLoop, hk]
  simp only [hcond, if_true]

/-- Exhaustion case of the retry loop: when every HTTP call yields a
response whose status is in the retry set and not 2xx, the loop runs
all its iterations, sleeps `backoff ^ i` after every iteration except
the last, and ends in the failure envelope. -/
theorem pollLoop_exhausts (ctx : LoopCtx)
    (hresp : ∀ k, ∃ s hs b d, ctx.http k = .resp s hs b d ∧
      ctx.retryOn.contains s = true ∧ ¬(200 ≤ s ∧ s < 300)) :
    ∀ (remaining attempt : Nat) (acc : LoopAcc), (attempt : Int) + (remaining : Int) = ctx.maxAttempts →
      ∃ acc', pollLoop ctx remaining attempt acc = (failureEnvelope ctx (attempt + remaining) acc', acc') ∧
        acc'.sleeps = acc.sleeps ++ (List.range' (attempt + 1) (remaining - 1)).map (fun i => ctx.backoff ^ i) ∧
        acc'.calls = acc.calls + remaining := by
  intro remaining
  induction remaining with
  | zero =>
    intro attempt acc _
    exact ⟨acc, by simp [pollLoop], by simp, by simp⟩
  | succ r ih =>
    intro attempt acc hinv
    obtain ⟨s, hs, b, d, hk, hin, hnot2xx⟩ := hresp acc.calls
    have hok : decide (200 ≤ s ∧ s < 300) = false := by simp [hnot2xx]
    have hcond : (decide (200 ≤ s ∧ s < 300) || !(ctx.retryOn.contains s)) = false := by
      rw [hok, hin]
      simp
    have hsleepIff : ((attempt + 1 : Nat) : Int) < ctx.maxAttempts ↔ 0 < r := by
      omega
    set acc1 : LoopAcc :=
      { acc with
        calls := acc.calls + 1
        lastStatus := some s
        lastDurationMs := some d
        attemptLogs := acc.attemptLogs ++
          [{ attempt := attempt + 1, status := some s, duration_ms := some d }] } with hacc1
    have hstep : ∀ acc2 : LoopAcc,
        acc2 = (if ((attempt + 1 : Nat) : Int) < ctx.maxAttempts then
            { acc1 with sleeps := acc1.sleeps ++ [ctx.backoff ^ (attempt + 1)] } else acc1) →
        pollLoop ctx (r + 1) attempt acc = pollLoop ctx r (attempt + 1) acc2 := by
      intro acc2 h2
      rw [pollLoop, hk]
      simp only [hcond, Bool.false_eq_true, if_false]
      rw [h2, hacc1]
    rcases Nat.eq_zero_or_pos r with hr | hr
    · subst hr
      have h2 : acc1 = (if ((attempt + 1 : Nat) : Int) < ctx.maxAttempts then
          { acc1 with sleeps := acc1.sleeps ++ [ctx.backoff ^ (attempt + 1)] } else acc1) := by
        rw [if_neg]
        omega
      obtain ⟨acc', hpoll, hsl, hca⟩ := ih (attempt + 1) acc1 (by omega)
      refine ⟨acc', ?_, ?_, ?_⟩
      · rw [hstep acc1 h2, hpoll]
      · rw [hsl]
        try simp [hacc1]
      · rw [hca]
        try simp [hacc1]
        try omega
    · set acc2 : LoopAcc := { acc1 with sleeps := acc1.sleeps ++ [ctx.backoff ^ (attempt + 1)] } with hacc2
      have h2 : acc2 = (if ((attempt + 1 : Nat) : Int) < ctx.maxAttempts then
          { acc1 with sleeps := acc1.sleeps ++ [ctx.backoff ^ (attempt + 1)] } else acc1) := by
        rw [if_pos]
        omega
      obtain ⟨acc', hpoll, hsl, hca⟩ := ih (attempt + 1) acc2 (by omega)
      refine ⟨acc', ?_, ?_, ?_⟩
      · rw [hstep acc2 h2, hpoll]
        have : attempt + 1 + r = attempt + (r + 1) := by omega
        rw [this]
      · rw [hsl]
        simp only [hacc2, hacc1]
        have hrr : r - 1 + 1 = r := by omega
        have hrange : List.range' (attempt + 1) r = (attempt + 1) :: List.range' (attempt + 2) (r - 1) := by
          conv_lhs => rw [← hrr]
          rw [List.range'_succ]
        simp only [Nat.add_sub_cancel]
        rw [hrange]
        simp [List.append_assoc]
      · rw [hca]
        try simp [hacc2, hacc1]
        try omega

/-- Unfolding of `lambdaHandler` on the happy path (url present,
credential resolution succeeded, header merge succeeded). -/
theorem lambdaHandler_run (cfg : Config) (w : World) (e : Event) (cache0 : Cache)
    (url : String) (ah : List (String × String)) (asrc : Option String) (st : FetchSt)
    (hdrs : List (String × Value))
    (hurl : e.request.url = some url)
    (hres : resolveApiKey cfg e.auth w.store w.jsonLookup w.now cache0 0 = (.ok (ah, asrc), st))
    (hhdr : headersStep e.request.headers ah = some hdrs) :
    lambdaHandler cfg w e cache0 =
      { result := .ok (pollLoop (mkCtx cfg w e asrc hdrs url) (maxAttemptsOf e).toNat 0 {}).1
        httpCalls := (pollLoop (mkCtx cfg w e asrc hdrs url) (maxAttemptsOf e).toNat 0 {}).2.calls
        storeCalls := st.calls
        secretSleeps := st.sleeps
        loopSleeps := (pollLoop (mkCtx cfg w e asrc hdrs url) (maxAttemptsOf e).toNat 0 {}).2.sleeps
        cacheAfter := st.cache } := by
  unfold lambdaHandler
  simp only [hurl, hres, hhdr]

/-- Unfolding of `lambdaHandler` when credential resolution raises. -/
theorem lambdaHandler_resolveError (cfg : Config) (w : World) (e : Event) (cache0 : Cache)
    (url : String) (err : String) (st : FetchSt)
    (hurl : e.request.url = some url)
    (hres : resolveApiKey cfg e.auth w.store w.jsonLookup w.now cache0 0 = (.error err, st)) :
    lambdaHandler cfg w e cache0 =
      { result := .error err
        httpCalls := 0
        storeCalls := st.calls
        secretSleeps := st.sleeps
        loopSleeps := []
        cacheAfter := st.cache } := by
  unfold lambdaHandler
  simp only [hurl, hres]

theorem maxAttemptsOf_noRetry (e : Event) (h : e.retry = none) : maxAttemptsOf e = 3 := by
  simp [maxAttemptsOf, effectiveRetry, h, asNumber, PyNum.toInt]

theorem backoffOf_noRetry (e : Event) (h : e.retry = none) : backoffOf e = (3 / 2 : Rat) := by
  simp [backoffOf, effectiveRetry, h, asNumber, PyNum.toRat]

theorem retryOnOf_noRetry (e : Event) (h : e.retry = none) : retryOnOf e = defaultRetryOn := by
  simp [retryOnOf, effectiveRetry, h, defaultRetryOn, asNumberList, asNumberListLoop,
    asNumber, PyNum.toInt]

theorem headersStep_noHeaders (ah : List (String × String)) :
    headersStep none ah = some (dictUpdateV [] ah) := by
  simp [headersStep, fromAttrval, lookupV, fromAttrvalKvs, pyTruthy]

/-- C4: with a non-expired cache entry whose raw value fails `jsonKey`
extraction, `_get_secret_value_with_retry` returns the raw cached value
with zero secret-store calls, instead of falling through to a live
fetch (which here would return `"fresh"`).  The spec and the code's own
comment intend a live fetch; the `return cached_val` after the
`except: pass` is the slip. -/
theorem c4_cached_parse_failure_uses_cache :
    getSecretValueWithRetry (fun _ => .ok "fresh") (fun _ _ => .error "KeyError: api_key")
        "apikey" (some "api_key") 3 (3 / 2 : Rat) 300 5 [("apikey", (10 : Rat), "not-json")] 0 =
      (.ok "not-json", { cache := [("apikey", (10 : Rat), "not-json")], calls := 0, sleeps := [] }) ∧
    (fun (_ : Nat) => (Except.ok "fresh" : Except String String)) 0 = .ok "fresh" := by
  constructor
  · simp [getSecretValueWithRetry, cacheGet, optTruthy]
    norm_num
  · rfl

/-- C7 counterexample: a caller-supplied `Content-Type` header is not
sent unchanged with a structured body; the executor overwrites it with
`application/json`. -/
theorem c7_counterexample :
    (httpRequestPrepare (fun _ => "JSON") [("Content-Type", .vStr "text/plain")] (some (.vDict []))).2 =
      [("Content-Type", .vStr "application/json")] ∧
    lookupV (httpRequestPrepare (fun _ => "JSON")
        [("Content-Type", .vStr "text/plain")] (some (.vDict []))).2 "Content-Type" ≠
      some (.vStr "text/plain") := by
  constructor
  · rfl
  · intro h
    simp [httpRequestPrepare, dictSetV, lookupV] at h

/-- C7 (amended): a structured (dict or list) body is serialized with
`json.dumps` and the sent headers always carry
`Content-Type: application/json`, overriding any caller-supplied value
under that key while leaving every other header entry unchanged; a
string body is encoded as-is and any other body passes through, with
the caller's headers untouched in both cases. -/
theorem c7_body_serialization (jd : Value → String) (headers : List (String × Value)) :
    (∀ kvs, (httpRequestPrepare jd headers (some (.vDict kvs))).1 = some (.ofStr (jd (.vDict kvs))) ∧
      lookupV (httpRequestPrepare jd headers (some (.vDict kvs))).2 "Content-Type" =
        some (.vStr "application/json") ∧
      ∀ key, key ≠ "Content-Type" →
        lookupV (httpRequestPrepare jd headers (some (.vDict kvs))).2 key = lookupV headers key) ∧
    (∀ xs, (httpRequestPrepare jd headers (some (.vList xs))).1 = some (.ofStr (jd (.vList xs))) ∧
      lookupV (httpRequestPrepare jd headers (some (.vList xs))).2 "Content-Type" =
        some (.vStr "application/json") ∧
      ∀ key, key ≠ "Content-Type" →
        lookupV (httpRequestPrepare jd headers (some (.vList xs))).2 key = lookupV headers key) ∧
    (∀ s, httpRequestPrepare jd headers (some (.vStr s)) = (some (.ofStr s), headers)) ∧
    (∀ bs, httpRequestPrepare jd headers (some (.vBytes bs)) = (some (.passthrough (.vBytes bs)), headers)) ∧
    httpRequestPrepare jd headers none = (none, headers) := by
  refine ⟨fun kvs => ⟨rfl, ?_, fun key hk => ?_⟩, fun xs => ⟨rfl, ?_, fun key hk => ?_⟩,
    fun s => rfl, fun bs => rfl, rfl⟩
  · exact lookupV_dictSetV_self headers "Content-Type" (.vStr "application/json")
  · exact lookupV_dictSetV_other headers "Content-Type" key (.vStr "application/json") hk
  · exact lookupV_dictSetV_self headers "Content-Type" (.vStr "application/json")
  · exact lookupV_dictSetV_other headers "Content-Type" key (.vStr "application/json") hk

/-- C7 witness: the amended statement applied at a concrete caller
header list, structured body and non-Content-Type key. -/
theorem c7_body_serialization_witness :
    ("X-Trace" ≠ "Content-Type") ∧
    lookupV (httpRequestPrepare (fun _ => "JSON")
        [("X-Trace", .vStr "t1"), ("Content-Type", .vStr "text/plain")]
        (some (.vDict []))).2 "X-Trace" =
      lookupV [("X-Trace", .vStr "t1"), ("Content-Type", .vStr "text/plain")] "X-Trace" :=
  ⟨by decide,
    ((c7_body_serialization (fun _ => "JSON")
      [("X-Trace", .vStr "t1"), ("Content-Type", .vStr "text/plain")]).1 []).2.2 "X-Trace" (by decide)⟩

/-- C9: numeric-list coercion of a plain list or a wrapped (`"L"`
tagged) list keeps the integer coercions of the coercible elements in
their original order and drops the rest (`List.filterMap` over the
per-element coercion); in particular coercing the list of strings "1",
"x", "3" yields [1, 3]. -/
theorem c9_number_list_coercion :
    (∀ (vs : List Value) (d : Option (List Int)),
      asNumberList (.vList vs) d = vs.filterMap numElem) ∧
    (∀ (vs : List Value) (d : Option (List Int)),
      asNumberList (.vDict [("L", .vList vs)]) d = vs.filterMap numElem) ∧
    (∀ d : Option (List Int),
      asNumberList (.vList [.vStr "1", .vStr "x", .vStr "3"]) d = [1, 3]) := by
  refine ⟨fun vs d => ?_, fun vs d => ?_, fun d => ?_⟩
  · simp [asNumberList, asNumberListLoop_eq_filterMap]
  · simp [asNumberList, lookupV, asNumberListLoop_eq_filterMap]
  · have h1 : pyParseInt "1" = some 1 := by decide
    have h3 : pyParseInt "3" = some 3 := by decide
    have hx : pyParseInt "x" = none := by decide
    have hix : pyIntFn (.vStr "x") = none := by decide
    have c1 : ("1".toList.contains '.') = false := by decide
    have c3 : ("3".toList.contains '.') = false := by decide
    have cx : ("x".toList.contains '.') = false := by decide
    simp [asNumberList, asNumberListLoop, asNumber, h1, h3, hx, hix, c1, c3, cx, PyNum.toInt]

/-- C1 (amended): for every invocation whose retry policy coerces to
maxAttempts = N (N ≥ 1) against a server whose every response carries a
non-2xx status that is in retryableStatuses, with no transport errors,
and whose credential resolution and header merge succeed, the handler
performs exactly N HTTP attempts, sleeps exactly N-1 times with
durations backoff^1 ... backoff^(N-1) (after each attempt except the
last), and returns an envelope with ok = false and attempts = N. -/
theorem c1_retry_exhaustion (cfg : Config) (w : World) (e : Event) (cache0 : Cache)
    (N : Nat) (url : String) (ah : List (String × String)) (asrc : Option String)
    (st : FetchSt) (hdrs : List (String × Value))
    (hurl : e.request.url = some url)
    (hres : resolveApiKey cfg e.auth w.store w.jsonLookup w.now cache0 0 = (.ok (ah, asrc), st))
    (hhdr : headersStep e.request.headers ah = some hdrs)
    (hN : 1 ≤ N) (hmax : maxAttemptsOf e = (N : Int))
    (hresp : ∀ k, ∃ s hs b d, w.http k = .resp s hs b d ∧
      (retryOnOf e).contains s = true ∧ ¬(200 ≤ s ∧ s < 300)) :
    (lambdaHandler cfg w e cache0).httpCalls = N ∧
    (lambdaHandler cfg w e cache0).loopSleeps =
      (List.range' 1 (N - 1)).map (fun i => backoffOf e ^ i) ∧
    ∃ env, (lambdaHandler cfg w e cache0).result = .ok env ∧
      env.ok = false ∧ env.attempts = some N := by
  rw [lambdaHandler_run cfg w e cache0 url ah asrc st hdrs hurl hres hhdr]
  have htn : (maxAttemptsOf e).toNat = N := by
    rw [hmax]
    exact Int.toNat_natCast N
  rw [htn]
  have hinv : ((0 : Nat) : Int) + (N : Int) = (mkCtx cfg w e asrc hdrs url).maxAttempts := by
    show ((0 : Nat) : Int) + (N : Int) = maxAttemptsOf e
    rw [hmax]
    omega
  obtain ⟨acc', hpoll, hsl, hca⟩ :=
    pollLoop_exhausts (mkCtx cfg w e asrc hdrs url) hresp N 0 {} hinv
  rw [hpoll]
  refine ⟨?_, ?_, ⟨_, rfl, rfl, ?_⟩⟩
  · rw [hca]
    simp
  · rw [hsl]
    rfl
  · show (failureEnvelope (mkCtx cfg w e asrc hdrs url) (0 + N) acc').attempts = some N
    simp [failureEnvelope]

def evC1 : Event :=
  { request := { url := some "http://example.com" }
    retry := some { max_attempts := some (.vInt 2), retry_on := some (.vList [.vInt 204]) } }

def wC1 : World :=
  { store := fun _ => .error "unused"
    jsonLookup := fun _ _ => .error "unused"
    http := fun _ => .resp 204 [] [] 7
    now := 0 }

theorem maxAttemptsOf_evC1 : maxAttemptsOf evC1 = 2 := by
  simp [maxAttemptsOf, effectiveRetry, evC1, asNumber, PyNum.toInt]

theorem retryOnOf_evC1 : retryOnOf evC1 = [204] := by
  simp [retryOnOf, effectiveRetry, evC1, asNumberList, asNumberListLoop, asNumber, PyNum.toInt]

/-- C1 counterexample: with retryableStatuses = {204}, maxAttempts = 2
and a server that always answers 204 — a status in the retryable set —
the handler stops after a single attempt with ok = true (the `ok`
check precedes the retry-set check), not after maxAttempts = 2
attempts with ok = false as the claim requires. -/
theorem c1_counterexample :
    maxAttemptsOf evC1 = 2 ∧ (retryOnOf evC1).contains 204 = true ∧
    wC1.http 0 = .resp 204 [] [] 7 ∧
    (lambdaHandler {} wC1 evC1 []).httpCalls = 1 ∧
    (lambdaHandler {} wC1 evC1 []).loopSleeps = [] ∧
    ∃ env, (lambdaHandler {} wC1 evC1 []).result = .ok env ∧
      env.ok = true ∧ env.attempts = some 1 := by
  have hres : resolveApiKey {} evC1.auth wC1.store wC1.jsonLookup wC1.now [] 0 =
      (.ok ([], none), { cache := [], calls := 0, sleeps := [] }) := rfl
  have hhdr : headersStep evC1.request.headers [] = some [] := by
    simp [evC1, headersStep_noHeaders, dictUpdateV]
  rw [lambdaHandler_run {} wC1 evC1 [] "http://example.com" [] none
    { cache := [], calls := 0, sleeps := [] } [] rfl hres hhdr]
  rw [maxAttemptsOf_evC1]
  have h2 : (2 : Int).toNat = 1 + 1 := rfl
  rw [h2]
  obtain ⟨acc', hpoll, hsl, hca⟩ := pollLoop_stops
    (mkCtx {} wC1 evC1 none [] "http://example.com") 1 0 {} 204 [] [] 7 rfl
    (Or.inl (by norm_num))
  rw [hpoll]
  refine ⟨rfl, by rw [retryOnOf_evC1]; decide, rfl, ?_, ?_, ?_⟩
  · rw [hca]
  · rw [hsl]
  · refine ⟨_, rfl, ?_, rfl⟩
    show decide (200 ≤ (204 : Int) ∧ 204 < 300) = true
    decide

def evW1 : Event := { request := { url := some "http://x" } }

def wW1 : World :=
  { store := fun _ => .error "unused"
    jsonLookup := fun _ _ => .error "unused"
    http := fun _ => .resp 500 [] [] 5
    now := 0 }

/-- C1 witness: the amended exhaustion theorem applied to a concrete
invocation with the default policy (maxAttempts 3) against a server
that always answers 500. -/
theorem c1_retry_exhaustion_witness :
    (1 ≤ 3 ∧ maxAttemptsOf evW1 = ((3 : Nat) : Int)) ∧
    (lambdaHandler {} wW1 evW1 []).httpCalls = 3 ∧
    (lambdaHandler {} wW1 evW1 []).loopSleeps =
      (List.range' 1 (3 - 1)).map (fun i => backoffOf evW1 ^ i) := by
  have hres : resolveApiKey {} evW1.auth wW1.store wW1.jsonLookup wW1.now [] 0 =
      (.ok ([], none), { cache := [], calls := 0, sleeps := [] }) := rfl
  have hhdr : headersStep evW1.request.headers [] = some [] := by
    simp [evW1, headersStep_noHeaders, dictUpdateV]
  have hmax : maxAttemptsOf evW1 = ((3 : Nat) : Int) := by
    rw [maxAttemptsOf_noRetry evW1 rfl]
    rfl
  have hresp : ∀ k, ∃ s hs b d, wW1.http k = .resp s hs b d ∧
      (retryOnOf evW1).contains s = true ∧ ¬(200 ≤ s ∧ s < 300) := by
    intro k
    refine ⟨500, [], [], 5, rfl, ?_, by norm_num⟩
    rw [retryOnOf_noRetry evW1 rfl]
    decide
  have h := c1_retry_exhaustion {} wW1 evW1 [] 3 "http://x" [] none
    { cache := [], calls := 0, sleeps := [] } [] rfl hres hhdr (by norm_num) hmax hresp
  exact ⟨⟨by norm_num, hmax⟩, h.1, h.2.1⟩

/-- C2: a response whose status is 2xx, or not a member of the
retryable set, ends the retry loop immediately after that single
evaluation: the success envelope is returned with no further HTTP call
and no backoff sleep (first conjunct, at any attempt); in particular a
first-attempt terminal status yields attempts = 1 with no sleep,
whatever maxAttempts is (second conjunct). -/
theorem c2_stop_on_terminal :
    (∀ (ctx : LoopCtx) (remaining attempt : Nat) (acc : LoopAcc) (s : Int)
       (hs : List (String × String)) (b : List Char) (d : Int),
       ctx.http acc.calls = .resp s hs b d →
       ((200 ≤ s ∧ s < 300) ∨ ctx.retryOn.contains s = false) →
       ∃ acc', pollLoop ctx (remaining + 1) attempt acc =
           (successEnvelope ctx (attempt + 1) acc' (decide (200 ≤ s ∧ s < 300)) s hs b, acc') ∧
         acc'.sleeps = acc.sleeps ∧ acc'.calls = acc.calls + 1) ∧
    (∀ (cfg : Config) (w : World) (e : Event) (cache0 : Cache) (url : String)
       (ah : List (String × String)) (asrc : Option String) (st : FetchSt)
       (hdrs : List (String × Value)) (s : Int) (hs : List (String × String))
       (b : List Char) (d : Int),
       e.request.url = some url →
       resolveApiKey cfg e.auth w.store w.jsonLookup w.now cache0 0 = (.ok (ah, asrc), st) →
       headersStep e.request.headers ah = some hdrs →
       1 ≤ maxAttemptsOf e →
       w.http 0 = .resp s hs b d →
       ((200 ≤ s ∧ s < 300) ∨ (retryOnOf e).contains s = false) →
       (lambdaHandler cfg w e cache0).httpCalls = 1 ∧
       (lambdaHandler cfg w e cache0).loopSleeps = [] ∧
       ∃ env, (lambdaHandler cfg w e cache0).result = .ok env ∧
         env.attempts = some 1 ∧ env.ok = decide (200 ≤ s ∧ s < 300)) := by
  constructor
  · intro ctx remaining attempt acc s hs b d hk hterm
    exact pollLoop_stops ctx remaining attempt acc s hs b d hk hterm
  · intro cfg w e cache0 url ah asrc st hdrs s hs b d hurl hres hhdr hmax hk hterm
    rw [lambdaHandler_run cfg w e cache0 url ah asrc st hdrs hurl hres hhdr]
    obtain ⟨r, hr⟩ : ∃ r, (maxAttemptsOf e).toNat = r + 1 :=
      ⟨(maxAttemptsOf e).toNat - 1, by omega⟩
    rw [hr]
    obtain ⟨acc', hpoll, hsl, hca⟩ :=
      pollLoop_stops (mkCtx cfg w e asrc hdrs url) r 0 {} s hs b d hk hterm
    rw [hpoll]
    exact ⟨by rw [hca], by rw [hsl], ⟨_, rfl, rfl, rfl⟩⟩

def evW2 : Event := { request := { url := some "http://api" } }

def wW2 : World :=
  { store := fun _ => .error "unused"
    jsonLookup := fun _ _ => .error "unused"
    http := fun _ => .resp 404 [] [] 3
    now := 0 }

/-- C2 witness: the stop theorem applied to a first-attempt 404 under
the default retry policy (404 is not retryable, maxAttempts 3). -/
theorem c2_stop_on_terminal_witness :
    (1 ≤ maxAttemptsOf evW2) ∧ ((retryOnOf evW2).contains 404 = false) ∧
    (lambdaHandler {} wW2 evW2 []).httpCalls = 1 ∧
    (lambdaHandler {} wW2 evW2 []).loopSleeps = [] := by
  have hmax : maxAttemptsOf evW2 = 3 := maxAttemptsOf_noRetry evW2 rfl
  have hcont : (retryOnOf evW2).contains 404 = false := by
    rw [retryOnOf_noRetry evW2 rfl]
    decide
  have h := c2_stop_on_terminal.2 {} wW2 evW2 [] "http://api" [] none
    { cache := [], calls := 0, sleeps := [] } [] 404 [] [] 3 rfl rfl
    (by simp [evW2, headersStep_noHeaders, dictUpdateV]) (by omega) rfl (Or.inr hcont)
  exact ⟨by omega, hcont, h.1, h.2.1⟩

/-- C3 (amended): for every event whose request lacks the url key, the
handler returns the envelope {ok: false, error: "request.url is
required"} having made zero HTTP attempts and zero secret-store calls;
a url key present with an empty value does not trigger this
validation. -/
theorem c3_missing_url (cfg : Config) (w : World) (e : Event) (cache0 : Cache)
    (hurl : e.request.url = none) :
    lambdaHandler cfg w e cache0 =
      { result := .ok { ok := false, error := some "request.url is required" }
        httpCalls := 0
        storeCalls := 0
        secretSleeps := []
        loopSleeps := []
        cacheAfter := cache0 } := by
  unfold lambdaHandler
  simp only [hurl]

def evW3 : Event := {}

/-- C3 witness: the amended theorem applied to an event with no request
fields at all. -/
theorem c3_missing_url_witness :
    evW3.request.url = none ∧
    lambdaHandler {} wW1 evW3 [] =
      { result := .ok { ok := false, error := some "request.url is required" }
        httpCalls := 0
        storeCalls := 0
        secretSleeps := []
        loopSleeps := []
        cacheAfter := [] } :=
  ⟨rfl, c3_missing_url {} wW1 evW3 [] rfl⟩

def cfgC3 : Config := { API_SECRET_NAME := some "sec" }

def evC3 : Event := { request := { url := some "" } }

def wC3 : World :=
  { store := fun _ => .ok "v"
    jsonLookup := fun _ _ => .error "unused"
    http := fun _ => .resp 200 [] [] 2
    now := 0 }

/-- C3 counterexample: an event whose url is present but empty passes
the validation — the handler resolves the secret (one store call) and
makes an HTTP attempt, instead of returning the input-error envelope
with zero attempts and zero secret-store calls. -/
theorem c3_counterexample :
    evC3.request.url = some "" ∧
    (lambdaHandler cfgC3 wC3 evC3 []).httpCalls = 1 ∧
    (lambdaHandler cfgC3 wC3 evC3 []).storeCalls = 1 ∧
    ∃ env, (lambdaHandler cfgC3 wC3 evC3 []).result = .ok env ∧ env.error = none := by
  have hres : resolveApiKey cfgC3 evC3.auth wC3.store wC3.jsonLookup wC3.now [] 0 =
      (.ok ([("Authorization", "Bearer v")], some "secret:sec"),
        { cache := [("sec", (0 : Rat) + 300, "v")], calls := 1, sleeps := [] }) := by
    simp [cfgC3, wC3, evC3, resolveApiKey, pyOrOpt, strOrD, optTruthy, getSecretValueWithRetry,
      cacheGet, secretFetchLoop, cacheSet]
  have hhdr : headersStep evC3.request.headers [("Authorization", "Bearer v")] =
      some [("Authorization", .vStr "Bearer v")] := by
    simp [evC3, headersStep_noHeaders, dictUpdateV, dictSetV, lookupV]
  rw [lambdaHandler_run cfgC3 wC3 evC3 [] "" [("Authorization", "Bearer v")] (some "secret:sec")
    { cache := [("sec", (0 : Rat) + 300, "v")], calls := 1, sleeps := [] }
    [("Authorization", .vStr "Bearer v")] rfl hres hhdr]
  rw [maxAttemptsOf_noRetry evC3 rfl]
  have h3 : (3 : Int).toNat = 2 + 1 := rfl
  rw [h3]
  obtain ⟨acc', hpoll, hsl, hca⟩ := pollLoop_stops
    (mkCtx cfgC3 wC3 evC3 (some "secret:sec") [("Authorization", .vStr "Bearer v")] "")
    2 0 {} 200 [] [] 2 rfl (Or.inl (by norm_num))
  rw [hpoll]
  exact ⟨rfl, by rw [hca], rfl, ⟨_, rfl, rfl⟩⟩

/-- C5 (amended): when credential resolution fails (the secret fetch
exhausted its retries), the failure propagates out of lambda_handler as
a raised fault — no envelope of any shape is returned — and the
invocation aborts before any HTTP attempt. -/
theorem c5_credential_failure_raises (cfg : Config) (w : World) (e : Event) (cache0 : Cache)
    (url : String) (err : String) (st : FetchSt)
    (hurl : e.request.url = some url)
    (hres : resolveApiKey cfg e.auth w.store w.jsonLookup w.now cache0 0 = (.error err, st)) :
    (lambdaHandler cfg w e cache0).result = .error err ∧
    (lambdaHandler cfg w e cache0).httpCalls = 0 ∧
    ∀ env, (lambdaHandler cfg w e cache0).result ≠ .ok env := by
  rw [lambdaHandler_resolveError cfg w e cache0 url err st hurl hres]
  exact ⟨rfl, rfl, fun env h => by simp at h⟩

def cfgC5 : Config := { API_SECRET_NAME := some "sec" }

def evC5 : Event := { request := { url := some "http://x" } }

def wC5 : World :=
  { store := fun _ => .error "boom"
    jsonLookup := fun _ _ => .error "unused"
    http := fun _ => .resp 200 [] [] 2
    now := 0 }

theorem resolveApiKey_wC5 : resolveApiKey cfgC5 evC5.auth wC5.store wC5.jsonLookup wC5.now [] 0 =
    (.error "boom", { cache := [], calls := 3, sleeps := [(3 / 2 : Rat) ^ 1, (3 / 2 : Rat) ^ 2] }) := by
  simp [cfgC5, wC5, evC5, resolveApiKey, pyOrOpt, strOrD, optTruthy, getSecretValueWithRetry,
    cacheGet, secretFetchLoop, cacheSet]

/-- C5 counterexample: with a configured secret name and a store that
always fails, lambda_handler does not return any structured
{ok: false, ...} envelope — the invocation ends in the raised fault
"boom". -/
theorem c5_counterexample :
    (lambdaHandler cfgC5 wC5 evC5 []).result = .error "boom" ∧
    ∀ env, (lambdaHandler cfgC5 wC5 evC5 []).result ≠ .ok env := by
  rw [lambdaHandler_resolveError cfgC5 wC5 evC5 [] "http://x" "boom"
    { cache := [], calls := 3, sleeps := [(3 / 2 : Rat) ^ 1, (3 / 2 : Rat) ^ 2] } rfl resolveApiKey_wC5]
  exact ⟨rfl, fun env h => by simp at h⟩

/-- C5 witness: the amended theorem applied to the concrete
always-failing store scenario. -/
theorem c5_credential_failure_raises_witness :
    evC5.request.url = some "http://x" ∧
    (lambdaHandler cfgC5 wC5 evC5 []).result = .error "boom" ∧
    (lambdaHandler cfgC5 wC5 evC5 []).httpCalls = 0 := by
  have h := c5_credential_failure_raises cfgC5 wC5 evC5 [] "http://x" "boom"
    { cache := [], calls := 3, sleeps := [(3 / 2 : Rat) ^ 1, (3 / 2 : Rat) ^ 2] } rfl resolveApiKey_wC5
  exact ⟨rfl, h.1, h.2.1⟩

/-- Truncation behaviour of the success envelope: the decoded body is
cut to `maxBodyChars` characters exactly when it is strictly longer,
and the `body_truncated` flag records whether that happened. -/
theorem successEnvelope_truncation (ctx : LoopCtx) (attempt : Nat) (acc : LoopAcc)
    (ok : Bool) (s : Int) (hs : List (String × String)) (b : List Char) :
    (ctx.maxBodyChars < b.length →
      (successEnvelope ctx attempt acc ok s hs b).body = some (b.take ctx.maxBodyChars) ∧
      (b.take ctx.maxBodyChars).length = ctx.maxBodyChars ∧
      (successEnvelope ctx attempt acc ok s hs b).body_truncated = some true) ∧
    (b.length ≤ ctx.maxBodyChars →
      (successEnvelope ctx attempt acc ok s hs b).body = some b ∧
      (successEnvelope ctx attempt acc ok s hs b).body_truncated = some false) := by
  constructor
  · intro hgt
    refine ⟨?_, ?_, ?_⟩
    · simp only [successEnvelope]
      rw [if_pos hgt]
    · rw [List.length_take]
      omega
    · simp only [successEnvelope]
      rw [decide_eq_true hgt]
  · intro hle
    have hnot : ¬ (b.length > ctx.maxBodyChars) := by omega
    refine ⟨?_, ?_⟩
    · simp only [successEnvelope]
      rw [if_neg hnot]
    · simp only [successEnvelope]
      rw [decide_eq_false hnot]

/-- C8: every terminal response — one whose status is 2xx or outside
the retryable set, at whatever attempt it arrives — yields an envelope
whose decoded body, when strictly longer than MAX_BODY_CHARS, is
truncated to exactly MAX_BODY_CHARS characters with
body_truncated = true, and, when at most MAX_BODY_CHARS characters long,
is returned whole with body_truncated = false (first conjunct, at the
retry loop for any attempt and state; second conjunct, through the
handler for a first-attempt terminal response of either kind). -/
theorem c8_body_truncation :
    (∀ (ctx : LoopCtx) (remaining attempt : Nat) (acc : LoopAcc) (s : Int)
       (hs : List (String × String)) (b : List Char) (d : Int),
       ctx.http acc.calls = .resp s hs b d →
       ((200 ≤ s ∧ s < 300) ∨ ctx.retryOn.contains s = false) →
       ∃ env acc', pollLoop ctx (remaining + 1) attempt acc = (env, acc') ∧
         (ctx.maxBodyChars < b.length →
           env.body = some (b.take ctx.maxBodyChars) ∧
           (b.take ctx.maxBodyChars).length = ctx.maxBodyChars ∧
           env.body_truncated = some true) ∧
         (b.length ≤ ctx.maxBodyChars →
           env.body = some b ∧ env.body_truncated = some false)) ∧
    (∀ (cfg : Config) (w : World) (e : Event) (cache0 : Cache) (url : String)
       (ah : List (String × String)) (asrc : Option String) (st : FetchSt)
       (hdrs : List (String × Value)) (s : Int) (hs : List (String × String))
       (b : List Char) (d : Int),
       e.request.url = some url →
       resolveApiKey cfg e.auth w.store w.jsonLookup w.now cache0 0 = (.ok (ah, asrc), st) →
       headersStep e.request.headers ah = some hdrs →
       1 ≤ maxAttemptsOf e →
       w.http 0 = .resp s hs b d →
       ((200 ≤ s ∧ s < 300) ∨ (retryOnOf e).contains s = false) →
       ∃ env, (lambdaHandler cfg w e cache0).result = .ok env ∧
         (cfg.MAX_BODY_CHARS < b.length →
           env.body = some (b.take cfg.MAX_BODY_CHARS) ∧
           (b.take cfg.MAX_BODY_CHARS).length = cfg.MAX_BODY_CHARS ∧
           env.body_truncated = some true) ∧
         (b.length ≤ cfg.MAX_BODY_CHARS →
           env.body = some b ∧ env.body_truncated = some false)) := by
  constructor
  · intro ctx remaining attempt acc s hs b d hk hterm
    obtain ⟨acc', hpoll, hsl, hca⟩ := pollLoop_stops ctx remaining attempt acc s hs b d hk hterm
    exact ⟨_, acc', hpoll, successEnvelope_truncation ctx (attempt + 1) acc'
      (decide (200 ≤ s ∧ s < 300)) s hs b⟩
  · intro cfg w e cache0 url ah asrc st hdrs s hs b d hurl hres hhdr hmax hk hterm
    rw [lambdaHandler_run cfg w e cache0 url ah asrc st hdrs hurl hres hhdr]
    obtain ⟨r, hr⟩ : ∃ r, (maxAttemptsOf e).toNat = r + 1 :=
      ⟨(maxAttemptsOf e).toNat - 1, by omega⟩
    rw [hr]
    obtain ⟨acc', hpoll, hsl, hca⟩ :=
      pollLoop_stops (mkCtx cfg w e asrc hdrs url) r 0 {} s hs b d hk hterm
    rw [hpoll]
    exact ⟨_, rfl, successEnvelope_truncation (mkCtx cfg w e asrc hdrs url) (0 + 1) acc'
      (decide (200 ≤ s ∧ s < 300)) s hs b⟩

def cfgW8 : Config := { MAX_BODY_CHARS := 3 }

def evW8 : Event := { request := { url := some "http://big" } }

def wW8 : World :=
  { store := fun _ => .error "unused"
    jsonLookup := fun _ _ => .error "unused"
    http := fun _ => .resp 404 [] "hello".toList 2
    now := 0 }

/-- C8 witness: the truncation theorem applied to a terminal
non-retryable non-2xx response (a 404 under the default retry set)
carrying a five-character body against a three-character threshold. -/
theorem c8_body_truncation_witness :
    (1 ≤ maxAttemptsOf evW8) ∧ ((retryOnOf evW8).contains 404 = false) ∧
    ∃ env, (lambdaHandler cfgW8 wW8 evW8 []).result = .ok env ∧
      (cfgW8.MAX_BODY_CHARS < "hello".toList.length →
        env.body = some ("hello".toList.take cfgW8.MAX_BODY_CHARS) ∧
        ("hello".toList.take cfgW8.MAX_BODY_CHARS).length = cfgW8.MAX_BODY_CHARS ∧
        env.body_truncated = some true) := by
  have hmax : maxAttemptsOf evW8 = 3 := maxAttemptsOf_noRetry evW8 rfl
  have hcont : (retryOnOf evW8).contains 404 = false := by
    rw [retryOnOf_noRetry evW8 rfl]
    decide
  have h := c8_body_truncation.2 cfgW8 wW8 evW8 [] "http://big" [] none
    { cache := [], calls := 0, sleeps := [] } [] 404 [] "hello".toList 2 rfl rfl
    (by simp [evW8, headersStep_noHeaders, dictUpdateV]) (by omega) rfl (Or.inr hcont)
  obtain ⟨env, henv, htr, _⟩ := h
  exact ⟨by omega, hcont, env, henv, htr⟩

/-- C10: with a url present, successful credential resolution and a
retry policy whose max_attempts coerces to a value at most 0, the
handler makes zero HTTP attempts and returns, without raising, the
failure envelope with ok = false, error = "Poller failed after 0
attempts", attempts = 0, and status and last_error both None. -/
theorem c10_zero_max_attempts (cfg : Config) (w : World) (e : Event) (cache0 : Cache)
    (url : String) (ah : List (String × String)) (asrc : Option String) (st : FetchSt)
    (hdrs : List (String × Value))
    (hurl : e.request.url = some url)
    (hres : resolveApiKey cfg e.auth w.store w.jsonLookup w.now cache0 0 = (.ok (ah, asrc), st))
    (hhdr : headersStep e.request.headers ah = some hdrs)
    (hmax : maxAttemptsOf e ≤ 0) :
    (lambdaHandler cfg w e cache0).httpCalls = 0 ∧
    ∃ env, (lambdaHandler cfg w e cache0).result = .ok env ∧
      env.ok = false ∧ env.error = some "Poller failed after 0 attempts" ∧
      env.attempts = some 0 ∧ env.status = none ∧ env.last_error = none := by
  rw [lambdaHandler_run cfg w e cache0 url ah asrc st hdrs hurl hres hhdr]
  have h0 : (maxAttemptsOf e).toNat = 0 := Int.toNat_of_nonpos hmax
  rw [h0]
  exact ⟨rfl, _, rfl, rfl, rfl, rfl, rfl, rfl⟩

def evW10 : Event :=
  { request := { url := some "http://x" }
    retry := some { max_attempts := some (.vInt 0) } }

theorem maxAttemptsOf_evW10 : maxAttemptsOf evW10 = 0 := by
  simp [maxAttemptsOf, effectiveRetry, evW10, asNumber, PyNum.toInt]

/-- C10 witness: the zero-attempts theorem applied to a concrete event
with max_attempts = 0. -/
theorem c10_zero_max_attempts_witness :
    (maxAttemptsOf evW10 ≤ 0) ∧
    (lambdaHandler {} wW1 evW10 []).httpCalls = 0 ∧
    ∃ env, (lambdaHandler {} wW1 evW10 []).result = .ok env ∧
      env.error = some "Poller failed after 0 attempts" ∧ env.attempts = some 0 := by
  have hmax : maxAttemptsOf evW10 ≤ 0 := by
    rw [maxAttemptsOf_evW10]
  have h := c10_zero_max_attempts {} wW1 evW10 [] "http://x" [] none
    { cache := [], calls := 0, sleeps := [] } [] rfl rfl
    (by simp [evW10, headersStep_noHeaders, dictUpdateV]) hmax
  obtain ⟨hc, env, henv, _, herr, hat, _, _⟩ := h
  exact ⟨hmax, hc, env, henv, herr, hat⟩

def cfgC6 : Config := { API_SECRET_NAME := some "pollersec", RETURN_DEBUG := true }

def evC6 : Event := { request := { url := some "http://x" } }

def wC6 : World :=
  { store := fun _ => .ok "s3cr3t"
    jsonLookup := fun _ _ => .error "unused"
    http := fun _ => .resp 200 [] [] 2
    now := 0 }

/-- C6: with the debug flag enabled and the auth credential resolved
from the secret store (raw value "s3cr3t"), the debug object attached
to the returned envelope carries the resolved request headers, and the
Authorization entry there holds "Bearer " followed by the raw secret
value — the raw secret is exposed, not only the authSource label.  The
logging path redacts these same header names, so the spec's
no-secret-in-debug requirement is the intent and the unredacted debug
attachment the slip. -/
theorem c6_debug_contains_raw_secret :
    wC6.store 0 = .ok "s3cr3t" ∧
    ∃ env d, (lambdaHandler cfgC6 wC6 evC6 []).result = .ok env ∧
      env.debug = some d ∧
      lookupV d.request.headers "Authorization" = some (.vStr ("Bearer " ++ "s3cr3t")) ∧
      env.auth_used = some "secret:pollersec" := by
  have hres : resolveApiKey cfgC6 evC6.auth wC6.store wC6.jsonLookup wC6.now [] 0 =
      (.ok ([("Authorization", "Bearer s3cr3t")], some "secret:pollersec"),
        { cache := [("pollersec", (0 : Rat) + 300, "s3cr3t")], calls := 1, sleeps := [] }) := by
    simp [cfgC6, wC6, evC6, resolveApiKey, pyOrOpt, strOrD, optTruthy, getSecretValueWithRetry,
      cacheGet, secretFetchLoop, cacheSet]
  have hhdr : headersStep evC6.request.headers [("Authorization", "Bearer s3cr3t")] =
      some [("Authorization", .vStr "Bearer s3cr3t")] := by
    simp [evC6, headersStep_noHeaders, dictUpdateV, dictSetV, lookupV]
  rw [lambdaHandler_run cfgC6 wC6 evC6 [] "http://x" [("Authorization", "Bearer s3cr3t")]
    (some "secret:pollersec")
    { cache := [("pollersec", (0 : Rat) + 300, "s3cr3t")], calls := 1, sleeps := [] }
    [("Authorization", .vStr "Bearer s3cr3t")] rfl hres hhdr]
  rw [maxAttemptsOf_noRetry evC6 rfl]
  have h3 : (3 : Int).toNat = 2 + 1 := rfl
  rw [h3]
  obtain ⟨acc', hpoll, hsl, hca⟩ := pollLoop_stops
    (mkCtx cfgC6 wC6 evC6 (some "secret:pollersec") [("Authorization", .vStr "Bearer s3cr3t")] "http://x")
    2 0 {} 200 [] [] 2 rfl (Or.inl (by norm_num))
  rw [hpoll]
  exact ⟨rfl, _, _, rfl, rfl, rfl, rfl⟩
